import Mathlib

/-!
Verification of the StationBoard departure-board renderer.

This file gives a shallow embedding of the refresh/render core of
`StationBoard.py` and proves properties of it.  The embedding follows the
source code:

* `Label` models a `tk.Label`: the text it was last configured with and
  whether it is currently gridded (shown).  `grid_remove` keeps the text.
* `DisplayState` models the `DisplayApp` widget state: the seven lists of
  ten labels created in `DisplayApp.__init__`, the status bar text, the
  window title (tkinter's initial title is the placeholder `"tk"`) and the
  clock label text.
* `ServiceEntry` models one element of `GSBR['trainServices']['service']`.
  Each field is wrapped in `Option`: `none` means the dictionary key is
  absent, so that looking it up raises `KeyError` (Python dict access).
  The fields that can be present with value `None` (`platform`,
  `cancelReason`, `delayReason`) are doubly wrapped.  `destination`
  abbreviates the nested access
  `services['destination']['location'][0]['locationName']`.
* `tryBody` is the body of the `try:` block inside the per-service loop of
  `DisplayApp.display_info`, with Python's evaluation order: the list
  subscript `self.xxx_disp[row_listindex]` is evaluated (and may raise an
  uncaught `IndexError`) before the field lookup of the argument (which may
  raise a caught `KeyError`); short-circuit `and` in the cancel/delay
  conditions is preserved.
* `display_info`, `update_display`, `update_time` follow the functions of
  the same names; `getServiceInfo` follows `OpenLDBWSApp.getServiceInfo`
  with the outcome of the network call supplied as an argument.
  An uncaught exception escaping `display_info` is modelled by the
  `Except.error` constructor carrying the state at the time of the raise.
-/

/-- A tkinter label: its configured text and whether it is gridded. -/
structure Label where
  text : String
  shown : Bool
deriving DecidableEq, Repr

/-- The widget state of `DisplayApp` that `display_info` reads and writes. -/
structure DisplayState where
  time_disp : List Label
  dest_disp : List Label
  plat_disp : List Label
  expt_disp : List Label
  cars_disp : List Label
  delayreason_disp : List Label
  cancelreason_disp : List Label
  statusbar : String
  title : String
  curtime : String
deriving DecidableEq, Repr

/-- One element of `GSBR['trainServices']['service']`.  `none` at the outer
level of a field means the key is absent and access raises `KeyError`. -/
structure ServiceEntry where
  std : Option String
  destination : Option String
  platform : Option (Option String)
  etd : Option String
  length : Option String
  isCancelled : Option Bool
  cancelReason : Option (Option String)
  delayReason : Option (Option String)
deriving DecidableEq, Repr

/-- The `GetDepartureBoardResponse` fields the program reads.
`trainServices = none` covers both an absent `trainServices` key and a
`None` value (the program treats them identically); `some l` is a present
`trainServices` whose `service` list is `l`. -/
structure Response where
  locationName : String
  trainServices : Option (List ServiceEntry)
  nrccMessages : Option (List String)
deriving DecidableEq, Repr

/-- `lbl.config(text=s)` followed by `lbl.grid(...)`. -/
def setShow (s : String) (l : Label) : Label :=
  { l with text := s, shown := true }

/-- `lbl.grid_remove()`: hides the label, keeping its text. -/
def hideL (l : Label) : Label :=
  { l with shown := false }

/-- Replace the element at index `i` by `f` of it; out of range is the
identity (used only behind explicit bound checks, as Python raises). -/
def listModify (f : Label → Label) : List Label → Nat → List Label
  | [], _ => []
  | l :: ls, 0 => f l :: ls
  | l :: ls, n + 1 => l :: listModify f ls n

/-- Read the label at index `i` (default used only out of range). -/
def getLabel (ls : List Label) (i : Nat) : Label :=
  ls.getD i ⟨"", false⟩

/-- The status-bar message for a caught `KeyError`, from
`f"Unknown data key \x7bke\x7d"`; Python's `str(KeyError)` wraps the key
in single quotes. -/
def keyErrMsg (k : String) : String :=
  "Unknown data key \x27" ++ k ++ "\x27"

/-- Outcome of the `try:` block of one loop iteration in `display_info`:
normal completion, a caught `KeyError` naming the missing key, or an
uncaught `IndexError` from subscripting a display list.  Each constructor
carries the widget state (and where relevant `display_row`) at that point. -/
inductive TryOut where
  | ok (st : DisplayState) (dr : Nat)
  | keyError (st : DisplayState) (dr : Nat) (key : String)
  | indexError (st : DisplayState)
deriving DecidableEq, Repr

/-- The widget state carried by a `TryOut`. -/
def TryOut.state : TryOut → DisplayState
  | .ok st _ => st
  | .keyError st _ _ => st
  | .indexError st => st

/-- The `elif self.delayreason_disp[row_listindex].grid_info() != \x7b\x7d:
grid_remove()` arm of `display_info`. -/
def elifDelay (st : DisplayState) (dr i : Nat) : TryOut :=
  if i < st.delayreason_disp.length then
    .ok (if (getLabel st.delayreason_disp i).shown then
          { st with delayreason_disp := listModify hideL st.delayreason_disp i }
         else st) dr
  else .indexError st

/-- Lines 296-305 of the source: show the delay reason only when
`services['cancelReason'] is None and services['delayReason'] is not None`
(short-circuit: `delayReason` is only looked up when `cancelReason` is
`None`), else hide the delay sub-row if it is gridded. -/
def delaySection (st : DisplayState) (dr i : Nat) (e : ServiceEntry) : TryOut :=
  match e.cancelReason with
  | none => .keyError st dr "cancelReason"
  | some cr =>
    match cr with
    | none =>
      match e.delayReason with
      | none => .keyError st dr "delayReason"
      | some dl =>
        match dl with
        | some reason =>
          if i < st.delayreason_disp.length then
            .ok { st with
                  delayreason_disp := listModify (setShow reason) st.delayreason_disp i }
              (dr + 1)
          else .indexError st
        | none => elifDelay st dr i
    | some _ => elifDelay st dr i

/-- The `elif self.cancelreason_disp[row_listindex].grid_info() != \x7b\x7d:
grid_remove()` arm, then the delay section. -/
def elifCancel (st : DisplayState) (dr i : Nat) (e : ServiceEntry) : TryOut :=
  if i < st.cancelreason_disp.length then
    delaySection
      (if (getLabel st.cancelreason_disp i).shown then
        { st with cancelreason_disp := listModify hideL st.cancelreason_disp i }
       else st) dr i e
  else .indexError st

/-- Lines 287-305: show the cancel reason when
`services['isCancelled'] and services['cancelReason'] is not None`
(short-circuit: `cancelReason` is only looked up when `isCancelled` is
truthy), else the elif arm; then the delay section. -/
def cancelSection (st : DisplayState) (dr i : Nat) (e : ServiceEntry) : TryOut :=
  match e.isCancelled with
  | none => .keyError st dr "isCancelled"
  | some c =>
    if c then
      match e.cancelReason with
      | none => .keyError st dr "cancelReason"
      | some cr =>
        match cr with
        | some reason =>
          if i < st.cancelreason_disp.length then
            delaySection
              { st with
                cancelreason_disp := listModify (setShow reason) st.cancelreason_disp i }
              (dr + 1) i e
          else .indexError st
        | none => elifCancel st dr i e
    else elifCancel st dr i e

/-- The body of the `try:` block for one service entry (lines 263-305).
Each display list is subscripted before the corresponding field lookup. -/
def tryBody (st : DisplayState) (dr i : Nat) (e : ServiceEntry) : TryOut :=
  if i < st.time_disp.length then
    match e.std with
    | none => .keyError st dr "std"
    | some stdv =>
      let st1 := { st with time_disp := listModify (setShow stdv) st.time_disp i }
      if i < st1.dest_disp.length then
        match e.destination with
        | none => .keyError st1 dr "destination"
        | some destv =>
          let st2 := { st1 with dest_disp := listModify (setShow destv) st1.dest_disp i }
          if i < st2.plat_disp.length then
            match e.platform with
            | none => .keyError st2 dr "platform"
            | some platv =>
              let st3 := { st2 with
                           plat_disp := listModify (setShow (platv.getD "")) st2.plat_disp i }
              if i < st3.expt_disp.length then
                match e.etd with
                | none => .keyError st3 dr "etd"
                | some etdv =>
                  let st4 := { st3 with
                               expt_disp := listModify (setShow etdv) st3.expt_disp i }
                  if i < st4.cars_disp.length then
                    match e.length with
                    | none => .keyError st4 dr "length"
                    | some lenv =>
                      let st5 := { st4 with
                                   cars_disp := listModify (setShow lenv) st4.cars_disp i }
                      cancelSection st5 dr i e
                  else .indexError st4
              else .indexError st3
          else .indexError st2
      else .indexError st1
  else .indexError st

/-- One iteration of the per-service loop: the `try:` block, the
`except KeyError` handler, and the trailing `display_row += 1`
(`row_listindex += 1` is done by the caller advancing `i`). -/
def renderEntry (st : DisplayState) (dr i : Nat) (e : ServiceEntry) :
    Except DisplayState (DisplayState × Nat) :=
  match tryBody st dr i e with
  | .ok st' dr' => .ok (st', dr' + 1)
  | .keyError st' dr' k => .ok ({ st' with statusbar := keyErrMsg k }, dr' + 1)
  | .indexError st' => .error st'

/-- The `for services in GSBR['trainServices']['service']:` loop, started
at slot index `i` and display row `dr`. -/
def renderLoop (st : DisplayState) (dr i : Nat) :
    List ServiceEntry → Except DisplayState (DisplayState × Nat)
  | [] => .ok (st, dr)
  | e :: es =>
    match renderEntry st dr i e with
    | .ok (st', dr') => renderLoop st' dr' (i + 1) es
    | .error stc => .error stc

/-- Hide all seven labels of one slot (lines 321-323). -/
def hideSlot (st : DisplayState) (i : Nat) : DisplayState :=
  { st with
    time_disp := listModify hideL st.time_disp i,
    dest_disp := listModify hideL st.dest_disp i,
    plat_disp := listModify hideL st.plat_disp i,
    expt_disp := listModify hideL st.expt_disp i,
    cars_disp := listModify hideL st.cars_disp i,
    cancelreason_disp := listModify hideL st.cancelreason_disp i,
    delayreason_disp := listModify hideL st.delayreason_disp i }

/-- The `for item in range(row_listindex, service_numrows):` blank-out loop
(lines 317-332): hide a slot while its time label is gridded, `break` at
the first hidden one.  Subscripting out of range raises `IndexError`. -/
def blankList (st : DisplayState) : List Nat → Except DisplayState DisplayState
  | [] => .ok st
  | item :: rest =>
    if item < st.time_disp.length then
      if (getLabel st.time_disp item).shown then
        blankList (hideSlot st item) rest
      else .ok st
    else .error st

/-- `DisplayApp.display_info` (lines 234-336).  `rows` is
`int(config['display']['rows'])`.  The final status-bar/hint `grid`
placement (lines 335-336) changes no tracked state.  An `Except.error`
result is an uncaught `IndexError` escaping the method. -/
def display_info (st : DisplayState) (rows : Nat) (GSBR : Option Response) :
    Except DisplayState DisplayState :=
  match GSBR with
  | none => .ok { st with statusbar := "No data received" }
  | some g =>
    match g.trainServices with
    | none => .ok { st with statusbar := "No services available" }
    | some services =>
      let st1 := if st.title = "tk" then
                   { st with title := "Departures from " ++ g.locationName }
                 else st
      match renderLoop st1 2 0 services with
      | .error stc => .error stc
      | .ok (st2, _) =>
        if services.length < rows then
          blankList st2 (List.range' services.length (rows - services.length))
        else .ok st2

/-- The state carried by a `display_info` result, whether it returned or
raised. -/
def stateOf : Except DisplayState DisplayState → DisplayState
  | .ok st => st
  | .error st => st

/-- Whether a `display_info` result is an uncaught exception. -/
def crashed : Except DisplayState DisplayState → Bool
  | .ok _ => false
  | .error _ => true

/-- `OpenLDBWSApp.getServiceInfo`: the outcome of the network call is an
argument; on an exception the status bar shows the message and `None` is
returned, otherwise the status bar shows `OK`. -/
def getServiceInfo (st : DisplayState) (outcome : Except String Response) :
    DisplayState × Option Response :=
  match outcome with
  | .error e => ({ st with statusbar := "Web service error: " ++ e }, none)
  | .ok r => ({ st with statusbar := "OK" }, some r)

/-- The process-level state driven by the timer callbacks. -/
structure World where
  running : Bool
  disp : DisplayState
  fetches : Nat
  destroyed : Bool
deriving DecidableEq, Repr

/-- The module-level `update_display` function (lines 392-407): fetch,
optionally show the one-time `nrccMessages` dialog, render, then either
reschedule itself (returning `true` in the third component) or destroy the
root window.  The second component records whether the blocking dialog was
shown.  If `display_info` raises, neither branch of the trailing `if`
runs. -/
def update_display (w : World) (outcome : Except String Response) (rows : Nat)
    (display_messages : Bool) : World × Bool × Bool :=
  let p := getServiceInfo w.disp outcome
  let dialog := match p.2 with
    | some g => display_messages && g.nrccMessages.isSome
    | none => false
  match display_info p.1 rows p.2 with
  | .error dc => ({ w with disp := dc, fetches := w.fetches + 1 }, dialog, false)
  | .ok d2 =>
    if w.running then
      ({ w with disp := d2, fetches := w.fetches + 1 }, dialog, true)
    else
      ({ w with disp := d2, fetches := w.fetches + 1, destroyed := true }, dialog, false)

/-- `DisplayApp.update_time` (lines 226-232): set the clock label and
reschedule only while `Running` is true (second component). -/
def update_time (now : String) (running : Bool) (st : DisplayState) :
    DisplayState × Bool :=
  ({ st with curtime := now }, running)

/-- The chain of `update_display` calls: the call site at line 411 passes
`display_messages = True`, every rescheduled call (line 405) passes no
argument, hence `False`.  Returns the final world and the per-call record
of whether the dialog was shown. -/
def refreshChain (w : World) (rows : Nat) :
    List (Except String Response) → Bool → World × List Bool
  | [], _ => (w, [])
  | o :: os, dm =>
    let r := update_display w o rows dm
    let rest := refreshChain r.1 rows os false
    (rest.1, r.2.1 :: rest.2)

/-- A sequence of render calls against responses (one per refresh). -/
def renderSeq (st : DisplayState) (rows : Nat) : List (Option Response) → DisplayState
  | [] => st
  | r :: rs => renderSeq (stateOf (display_info st rows r)) rows rs

/-- The window titles observed after each render of a sequence. -/
def titleTrace (st : DisplayState) (rows : Nat) :
    List (Option Response) → List String
  | [] => []
  | r :: rs =>
    let st' := stateOf (display_info st rows r)
    st'.title :: titleTrace st' rows rs

/-- Whether `display_info` takes the populating path on this argument
(`data_OK` stays `True`): a response is present and `trainServices` is
present and non-`None`. -/
def dataOKb : Option Response → Bool
  | none => false
  | some g => g.trainServices.isSome

/-- The station name of a response, if any. -/
def locName : Option Response → String
  | none => ""
  | some g => g.locationName

/-- A label as freshly constructed by `tk.Label(...)`: empty text, not
gridded. -/
def initLabel : Label := ⟨"", false⟩

/-- The widget state after `DisplayApp.__init__`: seven lists of ten fresh
labels, empty status bar, tkinter's placeholder title. -/
def initState : DisplayState :=
  { time_disp := List.replicate 10 initLabel
    dest_disp := List.replicate 10 initLabel
    plat_disp := List.replicate 10 initLabel
    expt_disp := List.replicate 10 initLabel
    cars_disp := List.replicate 10 initLabel
    delayreason_disp := List.replicate 10 initLabel
    cancelreason_disp := List.replicate 10 initLabel
    statusbar := ""
    title := "tk"
    curtime := "" }

/-- All eight keys of a service entry are present. -/
def wfb (e : ServiceEntry) : Bool :=
  e.std.isSome && e.destination.isSome && e.platform.isSome && e.etd.isSome &&
    e.length.isSome && e.isCancelled.isSome && e.cancelReason.isSome &&
    e.delayReason.isSome

/-- All seven display lists have the ten slots allocated in
`DisplayApp.__init__`. -/
def lens10 (st : DisplayState) : Prop :=
  st.time_disp.length = 10 ∧ st.dest_disp.length = 10 ∧
    st.plat_disp.length = 10 ∧ st.expt_disp.length = 10 ∧
    st.cars_disp.length = 10 ∧ st.cancelreason_disp.length = 10 ∧
    st.delayreason_disp.length = 10

instance (st : DisplayState) : Decidable (lens10 st) := by
  unfold lens10; infer_instance

/-! ### Basic lemmas about the label-list primitives -/

@[simp]
theorem listModify_length (f : Label → Label) :
    ∀ (l : List Label) (i : Nat), (listModify f l i).length = l.length := by
  intro l
  induction l with
  | nil => intro i; rfl
  | cons x xs ih =>
    intro i
    cases i with
    | zero => rfl
    | succ n => simp [listModify, ih]

theorem getLabel_listModify_self (f : Label → Label) :
    ∀ (l : List Label) (i : Nat), i < l.length →
      getLabel (listModify f l i) i = f (getLabel l i) := by
  intro l
  induction l with
  | nil => intro i h; simp at h
  | cons x xs ih =>
    intro i h
    cases i with
    | zero => simp [listModify, getLabel]
    | succ n =>
      simp only [listModify, getLabel, List.getD_cons_succ]
      exact ih n (by simpa using h)

theorem getLabel_listModify_ne (f : Label → Label) :
    ∀ (l : List Label) (i k : Nat), k ≠ i →
      getLabel (listModify f l i) k = getLabel l k := by
  intro l
  induction l with
  | nil => intro i k _; rfl
  | cons x xs ih =>
    intro i k hk
    cases i with
    | zero =>
      cases k with
      | zero => exact absurd rfl hk
      | succ m => simp [listModify, getLabel]
    | succ n =>
      cases k with
      | zero => simp [listModify, getLabel]
      | succ m =>
        simp only [listModify, getLabel, List.getD_cons_succ]
        exact ih n m (fun h => hk (by omega))

theorem listModify_noop (f : Label → Label) :
    ∀ (l : List Label) (i : Nat), f (getLabel l i) = getLabel l i →
      listModify f l i = l := by
  intro l
  induction l with
  | nil => intro i _; rfl
  | cons x xs ih =>
    intro i h
    cases i with
    | zero =>
      simp only [getLabel, List.getD_cons_zero] at h
      simp [listModify, h]
    | succ n =>
      simp only [getLabel, List.getD_cons_succ] at h
      simp [listModify, ih n h]

theorem hideL_noop {l : Label} (h : l.shown = false) : hideL l = l := by
  cases l; simp_all [hideL]

theorem getLabel_replicate (n i : Nat) :
    getLabel (List.replicate n initLabel) i = initLabel := by
  induction n generalizing i with
  | zero => rfl
  | succ m ih =>
    cases i with
    | zero => rfl
    | succ k => simpa [List.replicate, getLabel] using ih k

/-! ### Frame preservation: which parts of the state the render code
never changes -/

/-- Fields never touched by the per-entry `try:` body or the blank-out
loop: title, clock text, status bar, and all seven list lengths. -/
def framePres (st st' : DisplayState) : Prop :=
  st'.title = st.title ∧ st'.curtime = st.curtime ∧ st'.statusbar = st.statusbar ∧
    st'.time_disp.length = st.time_disp.length ∧
    st'.dest_disp.length = st.dest_disp.length ∧
    st'.plat_disp.length = st.plat_disp.length ∧
    st'.expt_disp.length = st.expt_disp.length ∧
    st'.cars_disp.length = st.cars_disp.length ∧
    st'.cancelreason_disp.length = st.cancelreason_disp.length ∧
    st'.delayreason_disp.length = st.delayreason_disp.length

/-- Like `framePres` but allowing the status bar to change (the
`except KeyError` handler writes it). -/
def framePresW (st st' : DisplayState) : Prop :=
  st'.title = st.title ∧ st'.curtime = st.curtime ∧
    st'.time_disp.length = st.time_disp.length ∧
    st'.dest_disp.length = st.dest_disp.length ∧
    st'.plat_disp.length = st.plat_disp.length ∧
    st'.expt_disp.length = st.expt_disp.length ∧
    st'.cars_disp.length = st.cars_disp.length ∧
    st'.cancelreason_disp.length = st.cancelreason_disp.length ∧
    st'.delayreason_disp.length = st.delayreason_disp.length

theorem framePres.weak {st st' : DisplayState} (h : framePres st st') :
    framePresW st st' := by
  obtain ⟨h1, h2, _, h4⟩ := h
  exact ⟨h1, h2, h4⟩

theorem framePres_refl (st : DisplayState) : framePres st st := by
  simp [framePres]

theorem framePres_trans {a b c : DisplayState} (h1 : framePres a b)
    (h2 : framePres b c) : framePres a c := by
  obtain ⟨a1, a2, a3, a4, a5, a6, a7, a8, a9, a10⟩ := h1
  obtain ⟨b1, b2, b3, b4, b5, b6, b7, b8, b9, b10⟩ := h2
  exact ⟨b1.trans a1, b2.trans a2, b3.trans a3, b4.trans a4, b5.trans a5,
    b6.trans a6, b7.trans a7, b8.trans a8, b9.trans a9, b10.trans a10⟩

theorem framePresW_trans {a b c : DisplayState} (h1 : framePresW a b)
    (h2 : framePresW b c) : framePresW a c := by
  obtain ⟨a1, a2, a4, a5, a6, a7, a8, a9, a10⟩ := h1
  obtain ⟨b1, b2, b4, b5, b6, b7, b8, b9, b10⟩ := h2
  exact ⟨b1.trans a1, b2.trans a2, b4.trans a4, b5.trans a5,
    b6.trans a6, b7.trans a7, b8.trans a8, b9.trans a9, b10.trans a10⟩

theorem elifDelay_pres (st : DisplayState) (dr i : Nat) :
    framePres st (elifDelay st dr i).state := by
  unfold elifDelay
  split
  · split <;> simp [TryOut.state, framePres]
  · simp [TryOut.state, framePres]

theorem delaySection_pres (st : DisplayState) (dr i : Nat) (e : ServiceEntry) :
    framePres st (delaySection st dr i e).state := by
  unfold delaySection
  split
  · simp [TryOut.state, framePres]
  · split
    · split
      · simp [TryOut.state, framePres]
      · split
        · split
          · simp [TryOut.state, framePres]
          · simp [TryOut.state, framePres]
        · exact elifDelay_pres _ _ _
    · exact elifDelay_pres _ _ _

theorem elifCancel_pres (st : DisplayState) (dr i : Nat) (e : ServiceEntry) :
    framePres st (elifCancel st dr i e).state := by
  unfold elifCancel
  split
  · split
    · exact framePres_trans (by simp [framePres]) (delaySection_pres _ _ _ _)
    · exact delaySection_pres _ _ _ _
  · simp [TryOut.state, framePres]

theorem cancelSection_pres (st : DisplayState) (dr i : Nat) (e : ServiceEntry) :
    framePres st (cancelSection st dr i e).state := by
  unfold cancelSection
  split
  · simp [TryOut.state, framePres]
  · split
    · split
      · simp [TryOut.state, framePres]
      · split
        · split
          · exact framePres_trans (by simp [framePres]) (delaySection_pres _ _ _ _)
          · simp [TryOut.state, framePres]
        · exact elifCancel_pres _ _ _ _
    · exact elifCancel_pres _ _ _ _

theorem tryBody_pres (st : DisplayState) (dr i : Nat) (e : ServiceEntry) :
    framePres st (tryBody st dr i e).state := by
  unfold tryBody
  dsimp only
  repeat' split
  all_goals
    first
      | (simp [TryOut.state, framePres]; done)
      | exact framePres_trans (by simp [framePres]) (cancelSection_pres _ _ _ _)

/-- The state carried by a `renderEntry`/`renderLoop` result. -/
def resState : Except DisplayState (DisplayState × Nat) → DisplayState
  | .ok (st, _) => st
  | .error st => st

theorem renderEntry_presW (st : DisplayState) (dr i : Nat) (e : ServiceEntry) :
    framePresW st (resState (renderEntry st dr i e)) := by
  have h := tryBody_pres st dr i e
  unfold renderEntry
  split <;> rename_i heq <;> rw [heq] at h <;>
    simp only [TryOut.state] at h <;> simp only [resState]
  · exact h.weak
  · obtain ⟨h1, h2, _, h4⟩ := h
    exact ⟨by simpa using h1, by simpa using h2, by simpa using h4⟩
  · exact h.weak

theorem renderLoop_presW :
    ∀ (es : List ServiceEntry) (st : DisplayState) (dr i : Nat),
      framePresW st (resState (renderLoop st dr i es)) := by
  intro es
  induction es with
  | nil => intro st dr i; simp [renderLoop, resState, framePresW]
  | cons e es ih =>
    intro st dr i
    have h1 := renderEntry_presW st dr i e
    unfold renderLoop
    split <;> rename_i heq <;> rw [heq] at h1 <;> simp only [resState] at h1
    · exact framePresW_trans h1 (ih _ _ _)
    · exact h1

theorem hideSlot_pres (st : DisplayState) (i : Nat) :
    framePres st (hideSlot st i) := by
  simp [hideSlot, framePres]

theorem blankList_pres :
    ∀ (items : List Nat) (st : DisplayState),
      framePres st (stateOf (blankList st items)) := by
  intro items
  induction items with
  | nil => intro st; simp [blankList, stateOf, framePres]
  | cons item rest ih =>
    intro st
    unfold blankList
    split
    · split
      · exact framePres_trans (hideSlot_pres st item) (ih _)
      · simp [stateOf, framePres]
    · simp [stateOf, framePres]

/-! ### Effect of rendering one well-formed entry -/

theorem setShow_eq (s : String) (l : Label) : setShow s l = ⟨s, true⟩ := by
  cases l; rfl

theorem listModify_hideL_noop {l : List Label} {i : Nat}
    (h : (getLabel l i).shown = false) : listModify hideL l i = l :=
  listModify_noop _ _ _ (hideL_noop h)

/-- The net effect on the widget state of one iteration of the service loop
for an entry whose eight keys are all present: the five primary labels of
slot `i` are set and gridded; the cancel sub-row is gridded exactly when
`isCancelled` is true and `cancelReason` is non-`None`; the delay sub-row
is gridded exactly when `cancelReason` is `None` and `delayReason` is
non-`None`; each non-gridded sub-row ends up un-gridded. -/
def wfStep (st : DisplayState) (i : Nat) (s d pt x ln : String) (c : Bool)
    (cr dl : Option String) : DisplayState :=
  { st with
    time_disp := listModify (setShow s) st.time_disp i,
    dest_disp := listModify (setShow d) st.dest_disp i,
    plat_disp := listModify (setShow pt) st.plat_disp i,
    expt_disp := listModify (setShow x) st.expt_disp i,
    cars_disp := listModify (setShow ln) st.cars_disp i,
    cancelreason_disp :=
      if c && cr.isSome then
        listModify (setShow (cr.getD "")) st.cancelreason_disp i
      else listModify hideL st.cancelreason_disp i,
    delayreason_disp :=
      if cr.isNone && dl.isSome then
        listModify (setShow (dl.getD "")) st.delayreason_disp i
      else listModify hideL st.delayreason_disp i }

theorem elifDelay_eq (st : DisplayState) (dr i : Nat)
    (hi : i < st.delayreason_disp.length) :
    elifDelay st dr i =
      .ok { st with delayreason_disp := listModify hideL st.delayreason_disp i }
        dr := by
  unfold elifDelay
  rw [if_pos hi]
  by_cases h : (getLabel st.delayreason_disp i).shown = true
  · rw [if_pos h]
  · rw [if_neg h]
    rw [listModify_hideL_noop (by simpa using h)]

theorem delaySection_eq (st : DisplayState) (dr i : Nat) (e : ServiceEntry)
    (cr dl : Option String)
    (hcr : e.cancelReason = some cr) (hdl : e.delayReason = some dl)
    (hi : i < st.delayreason_disp.length) :
    ∃ dr', delaySection st dr i e =
      .ok { st with delayreason_disp :=
              if cr.isNone && dl.isSome then
                listModify (setShow (dl.getD "")) st.delayreason_disp i
              else listModify hideL st.delayreason_disp i }
        dr' := by
  unfold delaySection
  rw [hcr]
  cases cr with
  | none =>
    rw [hdl]
    cases dl with
    | none => exact ⟨dr, by simp [elifDelay_eq st dr i hi]⟩
    | some r => exact ⟨dr + 1, by simp [if_pos hi]⟩
  | some r => exact ⟨dr, by simp [elifDelay_eq st dr i hi]⟩

theorem elifCancel_eq (st : DisplayState) (dr i : Nat) (e : ServiceEntry)
    (cr dl : Option String)
    (hcr : e.cancelReason = some cr) (hdl : e.delayReason = some dl)
    (hiC : i < st.cancelreason_disp.length)
    (hiD : i < st.delayreason_disp.length) :
    ∃ dr', elifCancel st dr i e =
      .ok { st with
            cancelreason_disp := listModify hideL st.cancelreason_disp i,
            delayreason_disp :=
              if cr.isNone && dl.isSome then
                listModify (setShow (dl.getD "")) st.delayreason_disp i
              else listModify hideL st.delayreason_disp i }
        dr' := by
  unfold elifCancel
  rw [if_pos hiC]
  by_cases h : (getLabel st.cancelreason_disp i).shown = true
  · rw [if_pos h]
    obtain ⟨dr', h'⟩ := delaySection_eq
      { st with cancelreason_disp := listModify hideL st.cancelreason_disp i }
      dr i e cr dl hcr hdl (by simpa using hiD)
    exact ⟨dr', by simpa using h'⟩
  · rw [if_neg h]
    obtain ⟨dr', h'⟩ := delaySection_eq st dr i e cr dl hcr hdl hiD
    refine ⟨dr', ?_⟩
    rw [h', listModify_hideL_noop
      (show (getLabel st.cancelreason_disp i).shown = false by simpa using h)]

theorem cancelSection_eq (st : DisplayState) (dr i : Nat) (e : ServiceEntry)
    (c : Bool) (cr dl : Option String)
    (hc : e.isCancelled = some c)
    (hcr : e.cancelReason = some cr) (hdl : e.delayReason = some dl)
    (hiC : i < st.cancelreason_disp.length)
    (hiD : i < st.delayreason_disp.length) :
    ∃ dr', cancelSection st dr i e =
      .ok { st with
            cancelreason_disp :=
              if c && cr.isSome then
                listModify (setShow (cr.getD "")) st.cancelreason_disp i
              else listModify hideL st.cancelreason_disp i,
            delayreason_disp :=
              if cr.isNone && dl.isSome then
                listModify (setShow (dl.getD "")) st.delayreason_disp i
              else listModify hideL st.delayreason_disp i }
        dr' := by
  cases c with
  | false =>
    have hstep : cancelSection st dr i e = elifCancel st dr i e := by
      unfold cancelSection; rw [hc]; simp
    rw [hstep]
    obtain ⟨dr', h'⟩ := elifCancel_eq st dr i e cr dl hcr hdl hiC hiD
    exact ⟨dr', by rw [h']; simp⟩
  | true =>
    cases cr with
    | none =>
      have hstep : cancelSection st dr i e = elifCancel st dr i e := by
        unfold cancelSection; rw [hc, hcr]; simp
      rw [hstep]
      obtain ⟨dr', h'⟩ := elifCancel_eq st dr i e none dl hcr hdl hiC hiD
      exact ⟨dr', by rw [h']; simp⟩
    | some reason =>
      have hstep : cancelSection st dr i e =
          delaySection
            { st with cancelreason_disp :=
                listModify (setShow reason) st.cancelreason_disp i }
            (dr + 1) i e := by
        unfold cancelSection; rw [hc, hcr]; simp [hiC]
      rw [hstep]
      obtain ⟨dr', h'⟩ := delaySection_eq
        { st with cancelreason_disp :=
            listModify (setShow reason) st.cancelreason_disp i }
        (dr + 1) i e (some reason) dl hcr hdl (by simpa using hiD)
      refine ⟨dr', ?_⟩
      rw [h']
      simp

theorem tryBody_wf (st : DisplayState) (dr i : Nat) (e : ServiceEntry)
    (s d x ln : String) (pt : Option String) (c : Bool) (cr dl : Option String)
    (hs : e.std = some s) (hd : e.destination = some d) (hp : e.platform = some pt)
    (hx : e.etd = some x) (hl : e.length = some ln) (hc : e.isCancelled = some c)
    (hcr : e.cancelReason = some cr) (hdl : e.delayReason = some dl)
    (hlen : lens10 st) (hi : i < 10) :
    ∃ dr', tryBody st dr i e =
      .ok (wfStep st i s d (pt.getD "") x ln c cr dl) dr' := by
  obtain ⟨L1, L2, L3, L4, L5, L6, L7⟩ := hlen
  have hbody : tryBody st dr i e =
      cancelSection
        { st with
          time_disp := listModify (setShow s) st.time_disp i,
          dest_disp := listModify (setShow d) st.dest_disp i,
          plat_disp := listModify (setShow (pt.getD "")) st.plat_disp i,
          expt_disp := listModify (setShow x) st.expt_disp i,
          cars_disp := listModify (setShow ln) st.cars_disp i }
        dr i e := by
    unfold tryBody
    simp only [hs, hd, hp, hx, hl, L1, L2, L3, L4, L5, hi, if_true]
  obtain ⟨dr', hcs⟩ := cancelSection_eq
    { st with
      time_disp := listModify (setShow s) st.time_disp i,
      dest_disp := listModify (setShow d) st.dest_disp i,
      plat_disp := listModify (setShow (pt.getD "")) st.plat_disp i,
      expt_disp := listModify (setShow x) st.expt_disp i,
      cars_disp := listModify (setShow ln) st.cars_disp i }
    dr i e c cr dl hc hcr hdl (by simpa [L6] using hi) (by simpa [L7] using hi)
  refine ⟨dr', ?_⟩
  rw [hbody, hcs]
  simp [wfStep]

theorem renderEntry_wf (st : DisplayState) (dr i : Nat) (e : ServiceEntry)
    (s d x ln : String) (pt : Option String) (c : Bool) (cr dl : Option String)
    (hs : e.std = some s) (hd : e.destination = some d) (hp : e.platform = some pt)
    (hx : e.etd = some x) (hl : e.length = some ln) (hc : e.isCancelled = some c)
    (hcr : e.cancelReason = some cr) (hdl : e.delayReason = some dl)
    (hlen : lens10 st) (hi : i < 10) :
    ∃ dr', renderEntry st dr i e =
      .ok (wfStep st i s d (pt.getD "") x ln c cr dl, dr') := by
  obtain ⟨dr', h⟩ :=
    tryBody_wf st dr i e s d x ln pt c cr dl hs hd hp hx hl hc hcr hdl hlen hi
  exact ⟨dr' + 1, by unfold renderEntry; rw [h]⟩

/-! ### Observation predicates on the widget state -/

/-- Slot `k` displays entry `e`: the five primary labels are gridded with
the entry's texts (platform blank when `None`), and the two sub-rows are
gridded exactly according to the cancel/delay rules of the source. -/
def slotRendered (st : DisplayState) (k : Nat) (e : ServiceEntry) : Prop :=
  getLabel st.time_disp k = ⟨e.std.getD "", true⟩ ∧
    getLabel st.dest_disp k = ⟨e.destination.getD "", true⟩ ∧
    getLabel st.plat_disp k = ⟨(e.platform.getD none).getD "", true⟩ ∧
    getLabel st.expt_disp k = ⟨e.etd.getD "", true⟩ ∧
    getLabel st.cars_disp k = ⟨e.length.getD "", true⟩ ∧
    (getLabel st.cancelreason_disp k).shown
        = (e.isCancelled.getD false && (e.cancelReason.getD none).isSome) ∧
    (getLabel st.delayreason_disp k).shown
        = ((e.cancelReason.getD none).isNone && (e.delayReason.getD none).isSome)

/-- The seven labels of slot `k` agree between two states. -/
def labelsEq (a b : DisplayState) (k : Nat) : Prop :=
  getLabel a.time_disp k = getLabel b.time_disp k ∧
    getLabel a.dest_disp k = getLabel b.dest_disp k ∧
    getLabel a.plat_disp k = getLabel b.plat_disp k ∧
    getLabel a.expt_disp k = getLabel b.expt_disp k ∧
    getLabel a.cars_disp k = getLabel b.cars_disp k ∧
    getLabel a.cancelreason_disp k = getLabel b.cancelreason_disp k ∧
    getLabel a.delayreason_disp k = getLabel b.delayreason_disp k

/-- All seven labels of slot `k` are un-gridded. -/
def all7Hidden (st : DisplayState) (k : Nat) : Prop :=
  (getLabel st.time_disp k).shown = false ∧
    (getLabel st.dest_disp k).shown = false ∧
    (getLabel st.plat_disp k).shown = false ∧
    (getLabel st.expt_disp k).shown = false ∧
    (getLabel st.cars_disp k).shown = false ∧
    (getLabel st.cancelreason_disp k).shown = false ∧
    (getLabel st.delayreason_disp k).shown = false

theorem labelsEq_refl (st : DisplayState) (k : Nat) : labelsEq st st k := by
  simp [labelsEq]

theorem labelsEq_trans {a b c : DisplayState} {k : Nat} (h1 : labelsEq a b k)
    (h2 : labelsEq b c k) : labelsEq a c k := by
  obtain ⟨a1, a2, a3, a4, a5, a6, a7⟩ := h1
  obtain ⟨b1, b2, b3, b4, b5, b6, b7⟩ := h2
  exact ⟨a1.trans b1, a2.trans b2, a3.trans b3, a4.trans b4, a5.trans b5,
    a6.trans b6, a7.trans b7⟩

theorem slotRendered_of_labelsEq {a b : DisplayState} {k : Nat} {e : ServiceEntry}
    (h : labelsEq a b k) (h2 : slotRendered b k e) : slotRendered a k e := by
  obtain ⟨e1, e2, e3, e4, e5, e6, e7⟩ := h
  obtain ⟨r1, r2, r3, r4, r5, r6, r7⟩ := h2
  exact ⟨e1.trans r1, e2.trans r2, e3.trans r3, e4.trans r4, e5.trans r5,
    (congrArg Label.shown e6).trans r6, (congrArg Label.shown e7).trans r7⟩

theorem all7Hidden_of_labelsEq {a b : DisplayState} {k : Nat}
    (h : labelsEq a b k) (h2 : all7Hidden b k) : all7Hidden a k := by
  obtain ⟨e1, e2, e3, e4, e5, e6, e7⟩ := h
  obtain ⟨r1, r2, r3, r4, r5, r6, r7⟩ := h2
  exact ⟨(congrArg Label.shown e1).trans r1, (congrArg Label.shown e2).trans r2,
    (congrArg Label.shown e3).trans r3, (congrArg Label.shown e4).trans r4,
    (congrArg Label.shown e5).trans r5, (congrArg Label.shown e6).trans r6,
    (congrArg Label.shown e7).trans r7⟩

theorem lens10_of_framePresW {st st' : DisplayState} (h : framePresW st st')
    (h2 : lens10 st) : lens10 st' := by
  obtain ⟨_, _, p1, p2, p3, p4, p5, p6, p7⟩ := h
  obtain ⟨q1, q2, q3, q4, q5, q6, q7⟩ := h2
  exact ⟨p1.trans q1, p2.trans q2, p3.trans q3, p4.trans q4, p5.trans q5,
    p6.trans q6, p7.trans q7⟩

theorem wfStep_pres (st : DisplayState) (i : Nat) (s d pt x ln : String)
    (c : Bool) (cr dl : Option String) :
    framePres st (wfStep st i s d pt x ln c cr dl) := by
  unfold wfStep framePres
  refine ⟨rfl, rfl, rfl, ?_, ?_, ?_, ?_, ?_, ?_, ?_⟩ <;> (repeat' split) <;> simp

theorem wfStep_slotRendered (st : DisplayState) (i : Nat) (e : ServiceEntry)
    (s d x ln : String) (pt : Option String) (c : Bool) (cr dl : Option String)
    (hs : e.std = some s) (hd : e.destination = some d) (hp : e.platform = some pt)
    (hx : e.etd = some x) (hl : e.length = some ln) (hc : e.isCancelled = some c)
    (hcr : e.cancelReason = some cr) (hdl : e.delayReason = some dl)
    (hlen : lens10 st) (hi : i < 10) :
    slotRendered (wfStep st i s d (pt.getD "") x ln c cr dl) i e := by
  obtain ⟨L1, L2, L3, L4, L5, L6, L7⟩ := hlen
  unfold slotRendered wfStep
  simp only [hs, hd, hp, hx, hl, hc, hcr, hdl, Option.getD_some]
  refine ⟨?_, ?_, ?_, ?_, ?_, ?_, ?_⟩
  · rw [getLabel_listModify_self _ _ _ (by rw [L1]; exact hi), setShow_eq]
  · rw [getLabel_listModify_self _ _ _ (by rw [L2]; exact hi), setShow_eq]
  · rw [getLabel_listModify_self _ _ _ (by rw [L3]; exact hi), setShow_eq]
  · rw [getLabel_listModify_self _ _ _ (by rw [L4]; exact hi), setShow_eq]
  · rw [getLabel_listModify_self _ _ _ (by rw [L5]; exact hi), setShow_eq]
  · split
    · rename_i hcond
      rw [getLabel_listModify_self _ _ _ (by rw [L6]; exact hi), setShow_eq]
      exact hcond.symm
    · rename_i hcond
      rw [getLabel_listModify_self _ _ _ (by rw [L6]; exact hi)]
      simp only [hideL]
      exact (Bool.not_eq_true _).mp hcond |>.symm
  · split
    · rename_i hcond
      rw [getLabel_listModify_self _ _ _ (by rw [L7]; exact hi), setShow_eq]
      exact hcond.symm
    · rename_i hcond
      rw [getLabel_listModify_self _ _ _ (by rw [L7]; exact hi)]
      simp only [hideL]
      exact (Bool.not_eq_true _).mp hcond |>.symm

theorem wfStep_labelsEq_ne (st : DisplayState) (i : Nat) (s d pt x ln : String)
    (c : Bool) (cr dl : Option String) (k : Nat) (hk : k ≠ i) :
    labelsEq (wfStep st i s d pt x ln c cr dl) st k := by
  unfold labelsEq wfStep
  refine ⟨?_, ?_, ?_, ?_, ?_, ?_, ?_⟩ <;> (repeat' split) <;>
    exact getLabel_listModify_ne _ _ _ _ hk

/-- Effect of the service loop on well-formed entries: starting at slot
`i`, each entry `j` of the list ends up rendered in slot `i + j`, every
other slot's labels are untouched, and the seven list lengths are kept. -/
theorem renderLoop_wf :
    ∀ (es : List ServiceEntry) (st : DisplayState) (dr i : Nat),
      (∀ e ∈ es, wfb e = true) → lens10 st → i + es.length ≤ 10 →
      ∃ st' dr', renderLoop st dr i es = .ok (st', dr') ∧ lens10 st' ∧
        (∀ k, k < i ∨ i + es.length ≤ k → labelsEq st' st k) ∧
        (∀ j (hj : j < es.length), slotRendered st' (i + j) (es.get ⟨j, hj⟩)) := by
  intro es
  induction es with
  | nil =>
    intro st dr i _ hlen _
    exact ⟨st, dr, rfl, hlen, fun k _ => labelsEq_refl st k, fun j hj => absurd hj (by simp)⟩
  | cons e es ih =>
    intro st dr i hwf hlen hbound
    simp only [List.length_cons] at hbound
    have hi : i < 10 := by omega
    have hwf_e : wfb e = true := hwf e (List.mem_cons_self e es)
    simp only [wfb, Bool.and_eq_true, Option.isSome_iff_exists] at hwf_e
    obtain ⟨⟨⟨⟨⟨⟨⟨⟨s, hs⟩, d, hd⟩, pt, hp⟩, x, hx⟩, ln, hl⟩, c, hc⟩, cr, hcr⟩, dl, hdl⟩ := hwf_e
    obtain ⟨dr', hre⟩ :=
      renderEntry_wf st dr i e s d x ln pt c cr dl hs hd hp hx hl hc hcr hdl hlen hi
    have hlenW : lens10 (wfStep st i s d (pt.getD "") x ln c cr dl) :=
      lens10_of_framePresW (wfStep_pres st i s d (pt.getD "") x ln c cr dl).weak hlen
    obtain ⟨st', dr'', hloop, hlen', houter, hslots⟩ :=
      ih (wfStep st i s d (pt.getD "") x ln c cr dl) dr' (i + 1)
        (fun e' he' => hwf e' (List.mem_cons_of_mem _ he')) hlenW (by omega)
    refine ⟨st', dr'', ?_, hlen', ?_, ?_⟩
    · unfold renderLoop
      rw [hre]
      exact hloop
    · intro k hk
      simp only [List.length_cons] at hk
      have h1 : labelsEq st' (wfStep st i s d (pt.getD "") x ln c cr dl) k := by
        refine houter k ?_
        rcases hk with hk | hk
        · exact Or.inl (by omega)
        · exact Or.inr (by omega)
      have h2 : labelsEq (wfStep st i s d (pt.getD "") x ln c cr dl) st k :=
        wfStep_labelsEq_ne st i s d (pt.getD "") x ln c cr dl k (by
          rcases hk with hk | hk <;> omega)
      exact labelsEq_trans h1 h2
    · intro j hj
      cases j with
      | zero =>
        have hW : slotRendered (wfStep st i s d (pt.getD "") x ln c cr dl) i e :=
          wfStep_slotRendered st i e s d x ln pt c cr dl hs hd hp hx hl hc hcr hdl
            hlen hi
        have hEq : labelsEq st' (wfStep st i s d (pt.getD "") x ln c cr dl) i :=
          houter i (Or.inl (by omega))
        simpa using slotRendered_of_labelsEq hEq hW
      | succ j =>
        have hj' : j < es.length := by simpa using Nat.lt_of_succ_lt_succ (by simpa using hj)
        have := hslots j hj'
        rw [show i + (j + 1) = (i + 1) + j from by omega]
        exact this

/-! ### Effect of the blank-out loop -/

/-- The shape the blank-out loop relies on at slot `k`: the five primary
labels are gridded exactly when `k < M`, and both sub-rows of slots at or
beyond `M` are hidden. -/
def shapeAt (st : DisplayState) (M k : Nat) : Prop :=
  (getLabel st.time_disp k).shown = decide (k < M) ∧
    (getLabel st.dest_disp k).shown = decide (k < M) ∧
    (getLabel st.plat_disp k).shown = decide (k < M) ∧
    (getLabel st.expt_disp k).shown = decide (k < M) ∧
    (getLabel st.cars_disp k).shown = decide (k < M) ∧
    (M ≤ k → (getLabel st.cancelreason_disp k).shown = false ∧
      (getLabel st.delayreason_disp k).shown = false)

theorem shapeAt_of_labelsEq {a b : DisplayState} {M k : Nat}
    (h : labelsEq a b k) (h2 : shapeAt b M k) : shapeAt a M k := by
  obtain ⟨e1, e2, e3, e4, e5, e6, e7⟩ := h
  obtain ⟨r1, r2, r3, r4, r5, r6⟩ := h2
  exact ⟨(congrArg Label.shown e1).trans r1, (congrArg Label.shown e2).trans r2,
    (congrArg Label.shown e3).trans r3, (congrArg Label.shown e4).trans r4,
    (congrArg Label.shown e5).trans r5,
    fun hM => ⟨(congrArg Label.shown e6).trans (r6 hM).1,
      (congrArg Label.shown e7).trans (r6 hM).2⟩⟩

theorem hideSlot_labelsEq_ne (st : DisplayState) (i k : Nat) (hk : k ≠ i) :
    labelsEq (hideSlot st i) st k := by
  unfold labelsEq hideSlot
  refine ⟨?_, ?_, ?_, ?_, ?_, ?_, ?_⟩ <;> exact getLabel_listModify_ne _ _ _ _ hk

theorem hideSlot_all7Hidden (st : DisplayState) (i : Nat) (hlen : lens10 st)
    (hi : i < 10) : all7Hidden (hideSlot st i) i := by
  obtain ⟨L1, L2, L3, L4, L5, L6, L7⟩ := hlen
  unfold all7Hidden hideSlot
  refine ⟨?_, ?_, ?_, ?_, ?_, ?_, ?_⟩ <;>
    rw [getLabel_listModify_self _ _ _ (by omega)] <;> simp [hideL]

/-- Effect of the blank-out loop over `range(item, item+n)` starting from
a state whose slots from `item` on have the `shapeAt M` form: it returns
normally, hides every slot in the range, and touches nothing else. -/
theorem blankList_spec (M : Nat) :
    ∀ (n : Nat) (st : DisplayState) (item : Nat),
      lens10 st → item + n ≤ 10 →
      (∀ k, item ≤ k → k < 10 → shapeAt st M k) →
      ∃ st', blankList st (List.range' item n) = .ok st' ∧ lens10 st' ∧
        (∀ k, item ≤ k → k < item + n → all7Hidden st' k) ∧
        (∀ k, k < item ∨ item + n ≤ k → labelsEq st' st k) ∧
        framePres st st' := by
  intro n
  induction n with
  | zero =>
    intro st item hlen _ _
    exact ⟨st, rfl, hlen, fun k h1 h2 => absurd h2 (by omega),
      fun k _ => labelsEq_refl st k, framePres_refl st⟩
  | succ n ih =>
    intro st item hlen hbound hshape
    have hitem10 : item < 10 := by omega
    have hlt : item < st.time_disp.length := by rw [hlen.1]; exact hitem10
    have hsh := (hshape item le_rfl hitem10).1
    rw [List.range'_succ item n 1]
    by_cases hM : item < M
    · have heq : blankList st (item :: List.range' (item + 1) n) =
          blankList (hideSlot st item) (List.range' (item + 1) n) := by
        unfold blankList
        rw [if_pos hlt, if_pos (by rw [hsh]; simpa using hM)]
        cases List.range' (item + 1) n <;> rfl
      have hlen' : lens10 (hideSlot st item) :=
        lens10_of_framePresW (hideSlot_pres st item).weak hlen
      have hshape' : ∀ k, item + 1 ≤ k → k < 10 → shapeAt (hideSlot st item) M k :=
        fun k h1 h2 =>
          shapeAt_of_labelsEq (hideSlot_labelsEq_ne st item k (by omega))
            (hshape k (by omega) h2)
      obtain ⟨st', hb, hlen2, hhid, houter, hpres⟩ :=
        ih (hideSlot st item) (item + 1) hlen' (by omega) hshape'
      refine ⟨st', by rw [heq]; exact hb, hlen2, ?_, ?_, ?_⟩
      · intro k h1 h2
        rcases Nat.eq_or_lt_of_le h1 with h1 | h1
        · have hlbl : labelsEq st' (hideSlot st item) k :=
            houter k (Or.inl (by omega))
          have hh : all7Hidden (hideSlot st item) k := by
            rw [← h1]; exact hideSlot_all7Hidden st item hlen hitem10
          exact all7Hidden_of_labelsEq hlbl hh
        · exact hhid k (by omega) (by omega)
      · intro k hk
        have h1 : labelsEq st' (hideSlot st item) k := by
          refine houter k ?_
          rcases hk with hk | hk
          · exact Or.inl (by omega)
          · exact Or.inr (by omega)
        exact labelsEq_trans h1
          (hideSlot_labelsEq_ne st item k (by rcases hk with hk | hk <;> omega))
      · exact framePres_trans (hideSlot_pres st item) hpres
    · have heq : blankList st (item :: List.range' (item + 1) n) = .ok st := by
        unfold blankList
        rw [if_pos hlt, if_neg (by rw [hsh]; simpa using hM)]
      refine ⟨st, heq, hlen, ?_, fun k _ => labelsEq_refl st k, framePres_refl st⟩
      intro k h1 h2
      have hk10 : k < 10 := by omega
      obtain ⟨r1, r2, r3, r4, r5, r6⟩ := hshape k h1 hk10
      have hkM : ¬ k < M := by omega
      obtain ⟨r7, r8⟩ := r6 (by omega)
      refine ⟨?_, ?_, ?_, ?_, ?_, r7, r8⟩ <;> simp_all

/-! ### Composition: the populating path of `display_info` -/

/-- Slot `j` shows entry `j`, for every entry of the list. -/
def rendersList (st : DisplayState) (entries : List ServiceEntry) : Prop :=
  ∀ j (hj : j < entries.length), slotRendered st j (entries.get ⟨j, hj⟩)

/-- Every slot in `[a, b)` is fully hidden. -/
def hiddenRange (st : DisplayState) (a b : Nat) : Prop :=
  ∀ k, a ≤ k → k < b → all7Hidden st k

/-- The reachable shape of the widget state between refreshes: the ten
slots are allocated, the primary labels are gridded exactly on slots
`0..M-1`, and the sub-rows of slots `M..9` are hidden. -/
def coherent (st : DisplayState) (M : Nat) : Prop :=
  lens10 st ∧ ∀ k, k < 10 → shapeAt st M k

instance (st : DisplayState) (M k : Nat) : Decidable (shapeAt st M k) := by
  unfold shapeAt; infer_instance

instance (st : DisplayState) (M : Nat) : Decidable (coherent st M) := by
  unfold coherent; infer_instance

theorem shapeAt_of_slotRendered {st : DisplayState} {k N : Nat} {e : ServiceEntry}
    (hk : k < N) (h : slotRendered st k e) : shapeAt st N k := by
  obtain ⟨r1, r2, r3, r4, r5, _, _⟩ := h
  have hd : decide (k < N) = true := by simpa using hk
  refine ⟨?_, ?_, ?_, ?_, ?_, fun hkN => absurd hkN (by omega)⟩ <;>
    simp_all

theorem shapeAt_of_all7Hidden {st : DisplayState} {k N : Nat}
    (hk : ¬ k < N) (h : all7Hidden st k) : shapeAt st N k := by
  obtain ⟨r1, r2, r3, r4, r5, r6, r7⟩ := h
  have hd : decide (k < N) = false := by simpa using hk
  exact ⟨by rw [r1, hd], by rw [r2, hd], by rw [r3, hd], by rw [r4, hd],
    by rw [r5, hd], fun _ => ⟨r6, r7⟩⟩

theorem shapeAt_change {st : DisplayState} {M N k : Nat} (h : shapeAt st M k)
    (hM : M ≤ k) (hN : N ≤ k) : shapeAt st N k := by
  obtain ⟨r1, r2, r3, r4, r5, r6⟩ := h
  have hdM : decide (k < M) = false := by simp; omega
  have hdN : decide (k < N) = false := by simp; omega
  exact ⟨by rw [r1, hdM, hdN], by rw [r2, hdM, hdN], by rw [r3, hdM, hdN],
    by rw [r4, hdM, hdN], by rw [r5, hdM, hdN], fun _ => r6 hM⟩

/-- The populate-then-blank pipeline of `display_info` on a well-formed
entry list, starting from a coherent label state: the loop succeeds, the
blank-out loop succeeds, the entries are rendered in response order into
slots `0..N-1`, slots `N..rows-1` end hidden, and the state is again
coherent. -/
theorem renderBlank_spec (st1 : DisplayState) (M rows : Nat)
    (entries : List ServiceEntry)
    (hlen1 : lens10 st1) (hshape1 : ∀ k, k < 10 → shapeAt st1 M k)
    (hM : M ≤ rows) (hrows : rows ≤ 10) (hN : entries.length ≤ rows)
    (hwf : ∀ e ∈ entries, wfb e = true) :
    ∃ st2 dr2 st', renderLoop st1 2 0 entries = .ok (st2, dr2) ∧
      (if entries.length < rows then
        blankList st2 (List.range' entries.length (rows - entries.length))
      else Except.ok st2) = .ok st' ∧
      rendersList st' entries ∧ hiddenRange st' entries.length rows ∧
      coherent st' entries.length ∧ st'.title = st1.title := by
  obtain ⟨st2, dr2, hloop, hlen2, houter2, hslots2⟩ :=
    renderLoop_wf entries st1 2 0 hwf hlen1 (by omega)
  have htitle2 : st2.title = st1.title := by
    have := (renderLoop_presW entries st1 2 0).1
    rw [hloop] at this
    exact this
  have hshape2 : ∀ k, entries.length ≤ k → k < 10 → shapeAt st2 M k :=
    fun k h1 h2 =>
      shapeAt_of_labelsEq (houter2 k (Or.inr (by omega))) (hshape1 k h2)
  by_cases hlt : entries.length < rows
  · obtain ⟨st3, hb, hlen3, hhid3, houter3, hpres3⟩ :=
      blankList_spec M (rows - entries.length) st2 entries.length hlen2
        (by omega) hshape2
    refine ⟨st2, dr2, st3, hloop, by rw [if_pos hlt]; exact hb, ?_, ?_, ?_, ?_⟩
    · intro j hj
      exact slotRendered_of_labelsEq (houter3 j (Or.inl hj))
        (by simpa using hslots2 j hj)
    · intro k h1 h2
      exact hhid3 k h1 (by omega)
    · refine ⟨hlen3, fun k hk => ?_⟩
      by_cases hk1 : k < entries.length
      · exact shapeAt_of_slotRendered hk1
          (slotRendered_of_labelsEq (houter3 k (Or.inl hk1))
            (by simpa using hslots2 k hk1))
      · by_cases hk2 : k < rows
        · exact shapeAt_of_all7Hidden hk1 (hhid3 k (by omega) (by omega))
        · have hl3 : labelsEq st3 st2 k := houter3 k (Or.inr (by omega))
          exact shapeAt_change (shapeAt_of_labelsEq hl3 (hshape2 k (by omega) hk))
            (by omega) (by omega)
    · rw [hpres3.1, htitle2]
  · refine ⟨st2, dr2, st2, hloop, by rw [if_neg hlt], ?_, ?_, ?_, htitle2⟩
    · intro j hj
      simpa using hslots2 j hj
    · intro k h1 h2
      exact absurd h2 (by omega)
    · refine ⟨hlen2, fun k hk => ?_⟩
      by_cases hk1 : k < entries.length
      · exact shapeAt_of_slotRendered hk1 (by simpa using hslots2 k hk1)
      · exact shapeAt_change (hshape2 k (by omega) hk) (by omega) (by omega)

/-! ### Claim theorems -/

/-- A representative well-formed service entry. -/
def sampleEntry : ServiceEntry :=
  ⟨some "10:15", some "Paddington", some (some "4"), some "On time", some "8",
   some false, some none, some none⟩

/-- C1: for every response with `N` service entries, `N` at most the
configured row count, `display_info` populates exactly the first `N`
primary row slots, in the order the entries appear in the response, and
every slot from `N` up to the configured row count minus one ends the
refresh hidden.  The starting state is any state reachable between
refreshes: `coherent st M`, where `M ≤ rows` is the number of slots the
previous refresh left gridded. -/
theorem c1_populates_in_order_and_hides_rest
    (st : DisplayState) (M rows : Nat) (name : String)
    (msgs : Option (List String)) (entries : List ServiceEntry)
    (hco : coherent st M) (hM : M ≤ rows) (hrows : rows ≤ 10)
    (hN : entries.length ≤ rows) (hwf : ∀ e ∈ entries, wfb e = true) :
    ∃ st', display_info st rows (some ⟨name, some entries, msgs⟩) = .ok st' ∧
      rendersList st' entries ∧ hiddenRange st' entries.length rows ∧
      coherent st' entries.length := by
  obtain ⟨hlen, hshape⟩ := hco
  by_cases ht : st.title = "tk"
  · obtain ⟨st2, dr2, st', hloop, hblank, hr, hh, hc, _⟩ :=
      renderBlank_spec { st with title := "Departures from " ++ name } M rows
        entries (by simpa [lens10] using hlen)
        (fun k hk => shapeAt_of_labelsEq (by simp [labelsEq]) (hshape k hk))
        hM hrows hN hwf
    refine ⟨st', ?_, hr, hh, hc⟩
    unfold display_info
    dsimp only
    rw [if_pos ht, hloop]
    exact hblank
  · obtain ⟨st2, dr2, st', hloop, hblank, hr, hh, hc, _⟩ :=
      renderBlank_spec st M rows entries hlen hshape hM hrows hN hwf
    refine ⟨st', ?_, hr, hh, hc⟩
    unfold display_info
    dsimp only
    rw [if_neg ht, hloop]
    exact hblank

/-- Witness for C1 at a concrete input: the initial state, two well-formed
entries, row count 2. -/
theorem c1_witness :
    (coherent initState 0 ∧ 0 ≤ 2 ∧ 2 ≤ 10 ∧
      ([sampleEntry, sampleEntry] : List ServiceEntry).length ≤ 2 ∧
      (∀ e ∈ [sampleEntry, sampleEntry], wfb e = true)) ∧
    ∃ st', display_info initState 2
        (some ⟨"Reading", some [sampleEntry, sampleEntry], none⟩) = .ok st' ∧
      rendersList st' [sampleEntry, sampleEntry] ∧
      hiddenRange st' 2 2 ∧ coherent st' 2 :=
  ⟨⟨by decide, by decide, by decide, by decide, by decide⟩,
   c1_populates_in_order_and_hides_rest initState 0 2 "Reading" none
     [sampleEntry, sampleEntry] (by decide) (by decide) (by decide) (by decide)
     (by decide)⟩

/-! ### Crash behaviour past the ten allocated slots (C2) -/

/-- Whether the `try:` block raised an uncaught `IndexError`. -/
def TryOut.isIndex : TryOut → Bool
  | .indexError _ => true
  | _ => false

theorem elifDelay_isIndex (st : DisplayState) (dr i : Nat)
    (h : i < st.delayreason_disp.length) :
    (elifDelay st dr i).isIndex = false := by
  unfold elifDelay
  rw [if_pos h]
  rfl

theorem delaySection_isIndex (st : DisplayState) (dr i : Nat) (e : ServiceEntry)
    (h : i < st.delayreason_disp.length) :
    (delaySection st dr i e).isIndex = false := by
  unfold delaySection
  cases hcr : e.cancelReason with
  | none => rfl
  | some cr =>
    cases cr with
    | some r => exact elifDelay_isIndex st dr i h
    | none =>
      cases hdl : e.delayReason with
      | none => rfl
      | some dl =>
        cases dl with
        | some r => dsimp only; rw [if_pos h]; rfl
        | none => exact elifDelay_isIndex st dr i h

theorem elifCancel_isIndex (st : DisplayState) (dr i : Nat) (e : ServiceEntry)
    (hC : i < st.cancelreason_disp.length)
    (hD : i < st.delayreason_disp.length) :
    (elifCancel st dr i e).isIndex = false := by
  unfold elifCancel
  rw [if_pos hC]
  by_cases hsh : (getLabel st.cancelreason_disp i).shown = true
  · rw [if_pos hsh]
    exact delaySection_isIndex _ dr i e (by simpa using hD)
  · rw [if_neg hsh]
    exact delaySection_isIndex _ dr i e hD

theorem cancelSection_isIndex (st : DisplayState) (dr i : Nat) (e : ServiceEntry)
    (hC : i < st.cancelreason_disp.length)
    (hD : i < st.delayreason_disp.length) :
    (cancelSection st dr i e).isIndex = false := by
  unfold cancelSection
  cases hc : e.isCancelled with
  | none => rfl
  | some c =>
    cases c with
    | false =>
      simp only [Bool.false_eq_true, if_false]
      exact elifCancel_isIndex st dr i e hC hD
    | true =>
      simp only [if_true]
      cases hcr : e.cancelReason with
      | none => rfl
      | some cr =>
        cases cr with
        | none => exact elifCancel_isIndex st dr i e hC hD
        | some r =>
          dsimp only
          rw [if_pos hC]
          exact delaySection_isIndex _ _ i e (by simpa using hD)

theorem tryBody_isIndex (st : DisplayState) (dr i : Nat) (e : ServiceEntry)
    (hlen : lens10 st) (hi : i < 10) :
    (tryBody st dr i e).isIndex = false := by
  obtain ⟨L1, L2, L3, L4, L5, L6, L7⟩ := hlen
  unfold tryBody
  cases hs : e.std with
  | none => simp [L1, hi]; rfl
  | some s =>
    cases hd : e.destination with
    | none => simp [L1, L2, hi]; rfl
    | some d =>
      cases hp : e.platform with
      | none => simp [L1, L2, L3, hi]; rfl
      | some p =>
        cases hx : e.etd with
        | none => simp [L1, L2, L3, L4, hi]; rfl
        | some x =>
          cases hl : e.length with
          | none => simp [L1, L2, L3, L4, L5, hi]; rfl
          | some l =>
            simp only [L1, L2, L3, L4, L5, hi, if_true]
            exact cancelSection_isIndex _ dr i e (by simpa using (by rw [L6]; exact hi : i < st.cancelreason_disp.length)) (by simpa using (by rw [L7]; exact hi : i < st.delayreason_disp.length))

theorem renderEntry_no_crash (st : DisplayState) (dr i : Nat) (e : ServiceEntry)
    (hlen : lens10 st) (hi : i < 10) :
    ∃ st' dr', renderEntry st dr i e = .ok (st', dr') ∧ lens10 st' := by
  have hIdx := tryBody_isIndex st dr i e hlen hi
  cases htb : tryBody st dr i e with
  | ok st1 dr1 =>
    have hre : renderEntry st dr i e = .ok (st1, dr1 + 1) := by
      unfold renderEntry; rw [htb]
    have hpres := renderEntry_presW st dr i e
    rw [hre] at hpres
    exact ⟨st1, dr1 + 1, hre,
      lens10_of_framePresW (by simpa [resState] using hpres) hlen⟩
  | keyError st1 dr1 k =>
    have hre : renderEntry st dr i e =
        .ok ({ st1 with statusbar := keyErrMsg k }, dr1 + 1) := by
      unfold renderEntry; rw [htb]
    have hpres := renderEntry_presW st dr i e
    rw [hre] at hpres
    exact ⟨_, dr1 + 1, hre,
      lens10_of_framePresW (by simpa [resState] using hpres) hlen⟩
  | indexError st1 =>
    rw [htb] at hIdx
    simp [TryOut.isIndex] at hIdx

/-- If the entry list reaches past slot 9, the service loop raises an
uncaught `IndexError` (the subscript at `row_listindex = 10`). -/
theorem renderLoop_crash (es : List ServiceEntry) :
    ∀ (st : DisplayState) (dr i : Nat), lens10 st → i ≤ 10 →
      10 < i + es.length →
      ∃ stc, renderLoop st dr i es = .error stc := by
  induction es with
  | nil =>
    intro st dr i _ h1 h2
    simp only [List.length_nil] at h2
    omega
  | cons e es ih =>
    intro st dr i hlen h1 h2
    simp only [List.length_cons] at h2
    by_cases hi : i < 10
    · obtain ⟨st', dr', hre, hlen'⟩ := renderEntry_no_crash st dr i e hlen hi
      obtain ⟨stc, hc⟩ := ih st' dr' (i + 1) hlen' (by omega) (by omega)
      exact ⟨stc, by unfold renderLoop; rw [hre]; exact hc⟩
    · have htb : tryBody st dr i e = .indexError st := by
        unfold tryBody
        rw [if_neg (by rw [hlen.1]; omega)]
      have hre : renderEntry st dr i e = .error st := by
        unfold renderEntry; rw [htb]
      exact ⟨st, by unfold renderLoop; rw [hre]⟩

/-- C2, counterexample to the claim as stated: a response with twelve
service entries makes `display_info` raise an uncaught `IndexError` at the
eleventh entry, so render does crash and slot-list indexing leaves bounds;
the excess entries are not silently dropped. -/
theorem c2_counterexample :
    crashed (display_info initState 15
      (some ⟨"X", some (List.replicate 12 sampleEntry), none⟩)) = true := by
  rfl

/-- C2 amended: for every response with more entries than the ten
allocated slots, entries are not silently dropped; the list subscript at
`row_listindex = 10` raises an uncaught `IndexError` and `display_info`
crashes. -/
theorem c2_amended_crashes (st : DisplayState) (rows : Nat) (name : String)
    (msgs : Option (List String)) (entries : List ServiceEntry)
    (hlen : lens10 st) (hgt : 10 < entries.length) :
    crashed (display_info st rows (some ⟨name, some entries, msgs⟩)) = true := by
  unfold display_info
  dsimp only
  by_cases ht : st.title = "tk"
  · rw [if_pos ht]
    obtain ⟨stc, hc⟩ := renderLoop_crash entries
      { st with title := "Departures from " ++ name } 2 0
      (by simpa [lens10] using hlen) (by omega) (by omega)
    rw [hc]
    rfl
  · rw [if_neg ht]
    obtain ⟨stc, hc⟩ := renderLoop_crash entries st 2 0 hlen (by omega) (by omega)
    rw [hc]
    rfl

/-- Witness for the amended C2 at a concrete input: eleven entries. -/
theorem c2_witness :
    (lens10 initState ∧ 10 < (List.replicate 11 sampleEntry).length) ∧
    crashed (display_info initState 11
      (some ⟨"X", some (List.replicate 11 sampleEntry), none⟩)) = true :=
  ⟨⟨by decide, by decide⟩,
   c2_amended_crashes initState 11 "X" none (List.replicate 11 sampleEntry)
     (by decide) (by decide)⟩

/-- C3, counterexample to the claim as stated: after a refresh gridded
slot 0, a null response shows the "no data" message but leaves slot 0
gridded (row slots are not cleared), and a response with a
present-but-empty entry list leaves the status bar unchanged instead of
showing a "no services" message. -/
theorem c3_counterexample :
    (stateOf (display_info
        (stateOf (display_info initState 10
          (some ⟨"S", some [sampleEntry], none⟩))) 10 none)).statusbar
      = "No data received" ∧
    (getLabel (stateOf (display_info
        (stateOf (display_info initState 10
          (some ⟨"S", some [sampleEntry], none⟩))) 10 none)).time_disp 0).shown
      = true ∧
    (stateOf (display_info { initState with statusbar := "OK" } 10
        (some ⟨"E", some [], none⟩))).statusbar = "OK" := by
  refine ⟨?_, ?_, ?_⟩ <;> rfl

/-- C3 amended: a null response sets the "No data received" message, a
response whose `trainServices` is absent or `None` sets the "No services
available" message, and in both cases table population and the row-hiding
sweep are skipped, leaving the rest of the state unchanged.  A
present-but-empty entry list instead takes the populating path and writes
no status message. -/
theorem c3_amended_status_rows_kept (st : DisplayState) (rows : Nat)
    (name : String) (msgs : Option (List String)) :
    display_info st rows none = .ok { st with statusbar := "No data received" } ∧
    display_info st rows (some ⟨name, none, msgs⟩) =
      .ok { st with statusbar := "No services available" } ∧
    (stateOf (display_info st rows (some ⟨name, some [], msgs⟩))).statusbar =
      st.statusbar := by
  refine ⟨rfl, rfl, ?_⟩
  unfold display_info
  dsimp only
  by_cases ht : st.title = "tk"
  · rw [if_pos ht]
    simp only [renderLoop]
    by_cases h0 : List.length ([] : List ServiceEntry) < rows
    · rw [if_pos h0]
      exact (blankList_pres _ _).2.2.1
    · rw [if_neg h0]
      rfl
  · rw [if_neg ht]
    simp only [renderLoop]
    by_cases h0 : List.length ([] : List ServiceEntry) < rows
    · rw [if_pos h0]
      exact (blankList_pres _ _).2.2.1
    · rw [if_neg h0]
      rfl

/-- An entry that is not cancelled but carries both a cancellation reason
and a delay reason. -/
def c4Entry : ServiceEntry :=
  ⟨some "10:15", some "Paddington", some (some "4"), some "On time", some "8",
   some false, some (some "cx"), some (some "dx")⟩

/-- C4, counterexample to the claim as stated: for an entry with
`cancelled = false` and a non-null delay reason (but a non-null
cancellation reason), the claim asserts the delay sub-row is shown; the
code shows neither sub-row, because the delay condition tests the
cancellation reason for `None`, not the cancelled flag. -/
theorem c4_counterexample :
    c4Entry.isCancelled = some false ∧
    c4Entry.delayReason = some (some "dx") ∧
    (getLabel (stateOf (display_info initState 1
        (some ⟨"S", some [c4Entry], none⟩))).delayreason_disp 0).shown = false :=
  ⟨rfl, rfl, by rfl⟩

/-- C4 amended: for every rendered well-formed entry, if `isCancelled` is
true and the cancellation reason is non-null, the cancellation sub-row is
shown and the delay sub-row is hidden (whatever the delay reason); and if
the cancellation reason is null and a delay reason is non-null, the delay
sub-row is shown and the cancellation sub-row is hidden. -/
theorem c4_amended_subrow_rules (st : DisplayState) (dr i : Nat)
    (e : ServiceEntry) (s d x ln : String) (pt : Option String) (c : Bool)
    (cr dl : Option String)
    (hs : e.std = some s) (hd : e.destination = some d) (hp : e.platform = some pt)
    (hx : e.etd = some x) (hl : e.length = some ln) (hc : e.isCancelled = some c)
    (hcr : e.cancelReason = some cr) (hdl : e.delayReason = some dl)
    (hlen : lens10 st) (hi : i < 10) :
    ∃ st' dr', renderEntry st dr i e = .ok (st', dr') ∧
      (c = true → cr.isSome = true →
        (getLabel st'.cancelreason_disp i).shown = true ∧
        (getLabel st'.delayreason_disp i).shown = false) ∧
      (cr = none → dl.isSome = true →
        (getLabel st'.delayreason_disp i).shown = true ∧
        (getLabel st'.cancelreason_disp i).shown = false) := by
  obtain ⟨dr', hre⟩ :=
    renderEntry_wf st dr i e s d x ln pt c cr dl hs hd hp hx hl hc hcr hdl hlen hi
  obtain ⟨_, _, _, _, _, hcan, hdel⟩ :=
    wfStep_slotRendered st i e s d x ln pt c cr dl hs hd hp hx hl hc hcr hdl
      hlen hi
  rw [hc, hcr] at hcan
  rw [hcr, hdl] at hdel
  simp only [Option.getD_some] at hcan hdel
  refine ⟨wfStep st i s d (pt.getD "") x ln c cr dl, dr', hre, ?_, ?_⟩
  · intro h1 h2
    constructor
    · rw [hcan, h1, h2]
      rfl
    · rw [hdel]
      cases cr with
      | none => simp at h2
      | some r => simp
  · intro h1 h2
    subst h1
    constructor
    · rw [hdel, h2]
      rfl
    · rw [hcan]
      simp

/-- An entry cancelled with a reason, also carrying a delay reason. -/
def c4wEntry : ServiceEntry :=
  ⟨some "09:00", some "Hull", some none, some "Cancelled", some "4",
   some true, some (some "broken"), some (some "late")⟩

/-- Witness for the amended C4 at a concrete cancelled entry. -/
theorem c4_witness :
    (c4wEntry.std = some "09:00" ∧ c4wEntry.destination = some "Hull" ∧
      c4wEntry.platform = some none ∧ c4wEntry.etd = some "Cancelled" ∧
      c4wEntry.length = some "4" ∧ c4wEntry.isCancelled = some true ∧
      c4wEntry.cancelReason = some (some "broken") ∧
      c4wEntry.delayReason = some (some "late") ∧ lens10 initState ∧ 0 < 10) ∧
    ∃ st' dr', renderEntry initState 2 0 c4wEntry = .ok (st', dr') ∧
      (true = true → (Option.some "broken").isSome = true →
        (getLabel st'.cancelreason_disp 0).shown = true ∧
        (getLabel st'.delayreason_disp 0).shown = false) ∧
      (Option.some "broken" = none → (Option.some "late").isSome = true →
        (getLabel st'.delayreason_disp 0).shown = true ∧
        (getLabel st'.cancelreason_disp 0).shown = false) :=
  ⟨⟨rfl, rfl, rfl, rfl, rfl, rfl, rfl, rfl, by decide, by decide⟩,
   c4_amended_subrow_rules initState 2 0 c4wEntry "09:00" "Hull" "Cancelled" "4"
     none true (some "broken") (some "late") rfl rfl rfl rfl rfl rfl rfl rfl
     (by decide) (by decide)⟩

/-! ### Per-entry KeyError recovery (C6, C10) -/

/-- The `display_row` carried by a `TryOut` (0 for an uncaught raise). -/
def TryOut.row : TryOut → Nat
  | .ok _ dr => dr
  | .keyError _ dr _ => dr
  | .indexError _ => 0

/-- The key of a caught `KeyError`, if any. -/
def TryOut.missingKey : TryOut → Option String
  | .keyError _ _ k => some k
  | _ => none

/-- C6: whenever a field lookup inside the `try:` block raises `KeyError`
on key `k`, the handler writes the message naming that key to the status
bar, `display_row` still advances, and the loop goes on to process the
remaining entries of the response from the next slot. -/
theorem c6_keyerror_reported_and_loop_continues (st : DisplayState)
    (dr i : Nat) (e : ServiceEntry) (es : List ServiceEntry) (k : String)
    (h : (tryBody st dr i e).missingKey = some k) :
    renderEntry st dr i e =
      .ok ({ (tryBody st dr i e).state with statusbar := keyErrMsg k },
        (tryBody st dr i e).row + 1) ∧
    renderLoop st dr i (e :: es) =
      renderLoop { (tryBody st dr i e).state with statusbar := keyErrMsg k }
        ((tryBody st dr i e).row + 1) (i + 1) es := by
  cases htb : tryBody st dr i e with
  | ok st1 dr1 => rw [htb] at h; simp [TryOut.missingKey] at h
  | indexError st1 => rw [htb] at h; simp [TryOut.missingKey] at h
  | keyError st1 dr1 k1 =>
    rw [htb] at h
    simp only [TryOut.missingKey, Option.some.injEq] at h
    subst h
    have hre : renderEntry st dr i e =
        .ok ({ st1 with statusbar := keyErrMsg k1 }, dr1 + 1) := by
      unfold renderEntry; rw [htb]
    constructor
    · simpa [TryOut.state, TryOut.row] using hre
    · conv_lhs => unfold renderLoop
      rw [hre]
      rfl

/-- An entry whose `etd` key is missing. -/
def c6Entry : ServiceEntry :=
  ⟨some "10:15", some "Paddington", some none, none, some "8",
   some false, some none, some none⟩

/-- Witness for C6 at a concrete entry missing its `etd` key. -/
theorem c6_witness :
    (tryBody initState 2 0 c6Entry).missingKey = some "etd" ∧
    (renderEntry initState 2 0 c6Entry =
      .ok ({ (tryBody initState 2 0 c6Entry).state with
             statusbar := keyErrMsg "etd" },
        (tryBody initState 2 0 c6Entry).row + 1) ∧
     renderLoop initState 2 0 (c6Entry :: [sampleEntry]) =
      renderLoop { (tryBody initState 2 0 c6Entry).state with
                   statusbar := keyErrMsg "etd" }
        ((tryBody initState 2 0 c6Entry).row + 1) 1 [sampleEntry]) :=
  ⟨by rfl,
   c6_keyerror_reported_and_loop_continues initState 2 0 c6Entry [sampleEntry]
     "etd" (by rfl)⟩

/-- An entry whose `etd` key is missing (with a platform value). -/
def c10Entry (s d : String) (pt : Option String) (lng : Option String)
    (cnl : Option Bool) (cr dl : Option (Option String)) : ServiceEntry :=
  ⟨some s, some d, some pt, none, lng, cnl, cr, dl⟩

/-- C10: rendering an entry is not atomic on a missing-field error.  For
an entry whose `etd` key is missing, the time, destination and platform
labels of the slot (written before the raise) hold their new values, the
expected-time and cars labels and both sub-rows keep whatever the previous
refresh left in them, the status bar names the missing key, and the row
cursor and slot index still advance, so the failed entry consumes one
display slot and one display row. -/
theorem c10_partial_write_still_advances (st : DisplayState) (dr i : Nat)
    (s d : String) (pt : Option String) (lng : Option String)
    (cnl : Option Bool) (cr dl : Option (Option String))
    (hT : i < st.time_disp.length) (hD : i < st.dest_disp.length)
    (hP : i < st.plat_disp.length) (hE : i < st.expt_disp.length) :
    renderEntry st dr i (c10Entry s d pt lng cnl cr dl) =
      .ok ({ st with
             time_disp := listModify (setShow s) st.time_disp i,
             dest_disp := listModify (setShow d) st.dest_disp i,
             plat_disp := listModify (setShow (pt.getD "")) st.plat_disp i,
             statusbar := keyErrMsg "etd" }, dr + 1) ∧
    ∀ es, renderLoop st dr i (c10Entry s d pt lng cnl cr dl :: es) =
      renderLoop
        { st with
          time_disp := listModify (setShow s) st.time_disp i,
          dest_disp := listModify (setShow d) st.dest_disp i,
          plat_disp := listModify (setShow (pt.getD "")) st.plat_disp i,
          statusbar := keyErrMsg "etd" } (dr + 1) (i + 1) es := by
  have htb : tryBody st dr i (c10Entry s d pt lng cnl cr dl) =
      .keyError
        { st with
          time_disp := listModify (setShow s) st.time_disp i,
          dest_disp := listModify (setShow d) st.dest_disp i,
          plat_disp := listModify (setShow (pt.getD "")) st.plat_disp i }
        dr "etd" := by
    unfold tryBody c10Entry
    simp [hT, hD, hP, hE]
  have hre : renderEntry st dr i (c10Entry s d pt lng cnl cr dl) =
      .ok ({ st with
             time_disp := listModify (setShow s) st.time_disp i,
             dest_disp := listModify (setShow d) st.dest_disp i,
             plat_disp := listModify (setShow (pt.getD "")) st.plat_disp i,
             statusbar := keyErrMsg "etd" }, dr + 1) := by
    unfold renderEntry
    rw [htb]
  refine ⟨hre, fun es => ?_⟩
  conv_lhs => unfold renderLoop
  rw [hre]

/-- Witness for C10 at slot 0 of the initial state. -/
theorem c10_witness :
    (0 < initState.time_disp.length ∧ 0 < initState.dest_disp.length ∧
      0 < initState.plat_disp.length ∧ 0 < initState.expt_disp.length) ∧
    (renderEntry initState 2 0 (c10Entry "10:15" "Paddington" (some "4")
        (some "8") (some false) (some none) (some none)) =
      .ok ({ initState with
             time_disp := listModify (setShow "10:15") initState.time_disp 0,
             dest_disp := listModify (setShow "Paddington") initState.dest_disp 0,
             plat_disp :=
               listModify (setShow ((some "4").getD "")) initState.plat_disp 0,
             statusbar := keyErrMsg "etd" }, 3) ∧
     renderLoop initState 2 0 (c10Entry "10:15" "Paddington" (some "4")
        (some "8") (some false) (some none) (some none) :: [sampleEntry]) =
      renderLoop
        { initState with
          time_disp := listModify (setShow "10:15") initState.time_disp 0,
          dest_disp := listModify (setShow "Paddington") initState.dest_disp 0,
          plat_disp :=
            listModify (setShow ((some "4").getD "")) initState.plat_disp 0,
          statusbar := keyErrMsg "etd" } 3 1 [sampleEntry]) := by
  have h := c10_partial_write_still_advances initState 2 0 "10:15" "Paddington"
    (some "4") (some "8") (some false) (some none) (some none)
    (by decide) (by decide) (by decide) (by decide)
  exact ⟨⟨by decide, by decide, by decide, by decide⟩, h.1, h.2 [sampleEntry]⟩

/-! ### Refresh-cycle level claims (C5, C7, C8) -/

/-- C5: when the service fetch raises, `getServiceInfo` catches the
exception and returns `None` (no crash), after surfacing the
human-readable message in the status area; `update_display` then treats
the cycle exactly as the no-data case (the status bar ends the cycle with
the no-data message over the same widget state), shows no dialog, and
reschedules the next tick exactly when the loop is still running. -/
theorem c5_fetch_failure_recovered (w : World) (emsg : String) (rows : Nat)
    (dm : Bool) :
    (getServiceInfo w.disp (.error emsg)).2 = none ∧
    (getServiceInfo w.disp (.error emsg)).1.statusbar =
      "Web service error: " ++ emsg ∧
    (update_display w (.error emsg) rows dm).1.disp =
      { w.disp with statusbar := "No data received" } ∧
    (update_display w (.error emsg) rows dm).2.1 = false ∧
    (update_display w (.error emsg) rows dm).2.2 = w.running := by
  refine ⟨rfl, rfl, ?_, ?_, ?_⟩ <;> cases hw : w.running <;>
    simp [update_display, getServiceInfo, display_info, hw]

/-- A world in which the user has already pressed Escape or closed the
window. -/
def stoppedWorld : World := ⟨false, initState, 0, false⟩

/-- C7, counterexample to the claim as stated: with the stop flag already
false, the next refresh tick still performs one service fetch before it
checks the flag, refuting "no further service fetch occurs". -/
theorem c7_counterexample :
    stoppedWorld.running = false ∧
    (update_display stoppedWorld (.ok ⟨"S", none, none⟩) 10 false).1.fetches =
      stoppedWorld.fetches + 1 :=
  ⟨rfl, by rfl⟩

/-- C7 amended: once the stop flag is false, no timer callback schedules a
further timer: the clock tick stops rescheduling, and the refresh tick —
after performing one final fetch and render — does not reschedule and
(when the render returns normally) destroys the root window, ending the
program. -/
theorem c7_amended_stop_behaviour (w : World) (outcome : Except String Response)
    (rows : Nat) (dm : Bool) (now : String) (hstop : w.running = false) :
    (update_time now w.running w.disp).2 = false ∧
    (update_display w outcome rows dm).2.2 = false ∧
    (update_display w outcome rows dm).1.fetches = w.fetches + 1 ∧
    (crashed (display_info (getServiceInfo w.disp outcome).1 rows
        (getServiceInfo w.disp outcome).2) = false →
      (update_display w outcome rows dm).1.destroyed = true) := by
  refine ⟨by simp [update_time, hstop], ?_, ?_, ?_⟩ <;>
    · unfold update_display
      dsimp only
      cases hdi : display_info (getServiceInfo w.disp outcome).1 rows
          (getServiceInfo w.disp outcome).2 with
      | error dc => simp [crashed]
      | ok d2 => simp [crashed, hstop]

/-- Witness for the amended C7 in a concrete stopped world. -/
theorem c7_witness :
    stoppedWorld.running = false ∧
    ((update_time "12:00:00" stoppedWorld.running stoppedWorld.disp).2 = false ∧
     (update_display stoppedWorld (.ok ⟨"S", none, none⟩) 10 false).2.2 = false ∧
     (update_display stoppedWorld (.ok ⟨"S", none, none⟩) 10 false).1.fetches =
       stoppedWorld.fetches + 1 ∧
     (crashed (display_info
         (getServiceInfo stoppedWorld.disp (.ok ⟨"S", none, none⟩)).1 10
         (getServiceInfo stoppedWorld.disp (.ok ⟨"S", none, none⟩)).2) = false →
       (update_display stoppedWorld (.ok ⟨"S", none, none⟩) 10
           false).1.destroyed = true)) :=
  ⟨rfl, c7_amended_stop_behaviour stoppedWorld (.ok ⟨"S", none, none⟩) 10 false
    "12:00:00" rfl⟩

theorem update_display_no_dialog (w : World) (o : Except String Response)
    (rows : Nat) : (update_display w o rows false).2.1 = false := by
  unfold update_display
  dsimp only
  split
  · cases o <;> simp [getServiceInfo]
  · split <;> cases o <;> simp [getServiceInfo]

theorem update_display_dialog_true (w : World) (o : Except String Response)
    (rows : Nat) :
    (update_display w o rows true).2.1 =
      (match o with
        | .ok r => r.nrccMessages.isSome
        | .error _ => false) := by
  unfold update_display
  dsimp only
  split
  · cases o <;> simp [getServiceInfo]
  · split <;> cases o <;> simp [getServiceInfo]

theorem refreshChain_tail_no_dialog (rows : Nat) :
    ∀ (os : List (Except String Response)) (w : World) (k : Nat)
      (hk : k < (refreshChain w rows os false).2.length),
      (refreshChain w rows os false).2.get ⟨k, hk⟩ = false := by
  intro os
  induction os with
  | nil => intro w k hk; simp [refreshChain] at hk
  | cons o os ih =>
    intro w k hk
    cases k with
    | zero => simpa [refreshChain] using update_display_no_dialog w o rows
    | succ k =>
      have := ih (update_display w o rows false).1 k
        (by simpa [refreshChain] using hk)
      simpa [refreshChain] using this

/-- C8: in the chain of `update_display` calls started with
`display_messages = True` and rescheduled with the default `False`, the
blocking notice dialog can only be shown by the very first call — and then
exactly when that call's fetch succeeded and the response carries
`nrccMessages` — and is never shown by any later call, whatever the
responses. -/
theorem c8_dialog_only_first_call (w : World) (rows : Nat)
    (os : List (Except String Response)) :
    (∀ k (hk : k < (refreshChain w rows os true).2.length), 1 ≤ k →
      (refreshChain w rows os true).2.get ⟨k, hk⟩ = false) ∧
    (∀ o os', os = o :: os' →
      (refreshChain w rows os true).2.head? =
        some (match o with
          | .ok r => r.nrccMessages.isSome
          | .error _ => false)) := by
  constructor
  · intro k hk h1
    cases os with
    | nil => simp [refreshChain] at hk
    | cons o os' =>
      cases k with
      | zero => omega
      | succ k =>
        have := refreshChain_tail_no_dialog rows os'
          (update_display w o rows true).1 k
          (by simpa [refreshChain] using hk)
        simpa [refreshChain] using this
  · intro o os' heq
    subst heq
    simpa [refreshChain] using update_display_dialog_true w o rows

/-- A response carrying service-wide notice messages. -/
def c8resp : Response := ⟨"S", none, some ["engineering works"]⟩

/-- Witness for C8: a two-call chain where the first response carries
notice messages; the dialog is shown on the first call only. -/
theorem c8_witness :
    (refreshChain ⟨true, initState, 0, false⟩ 10 [.ok c8resp, .ok c8resp]
        true).2.get ⟨1, by decide⟩ = false ∧
    (refreshChain ⟨true, initState, 0, false⟩ 10 [.ok c8resp, .ok c8resp]
        true).2.head? = some true := by
  constructor
  · exact (c8_dialog_only_first_call ⟨true, initState, 0, false⟩ 10
      [.ok c8resp, .ok c8resp]).1 1 (by decide) (by decide)
  · have h := (c8_dialog_only_first_call ⟨true, initState, 0, false⟩ 10
      [.ok c8resp, .ok c8resp]).2 (.ok c8resp) [.ok c8resp] rfl
    exact h

/-! ### Window-title behaviour (C9) -/

theorem dep_ne_tk (name : String) : "Departures from " ++ name ≠ "tk" := by
  intro h
  have h2 := congrArg String.length h
  rw [String.length_append] at h2
  have e1 : ("Departures from " : String).length = 16 := rfl
  have e2 : ("tk" : String).length = 2 := rfl
  rw [e1, e2] at h2
  omega

/-- The title after one render: set from the station name exactly when the
populating path is taken and the title still holds tkinter's placeholder,
otherwise untouched (whether or not the render later crashed). -/
theorem display_info_title (st : DisplayState) (rows : Nat) (r : Option Response) :
    (stateOf (display_info st rows r)).title =
      if dataOKb r = true ∧ st.title = "tk" then "Departures from " ++ locName r
      else st.title := by
  cases r with
  | none => simp [display_info, stateOf, dataOKb]
  | some g =>
    cases hts : g.trainServices with
    | none => simp [display_info, stateOf, dataOKb, hts]
    | some services =>
      have hdata : dataOKb (some g) = true := by simp [dataOKb, hts]
      unfold display_info
      dsimp only
      rw [hts]
      dsimp only
      by_cases ht : st.title = "tk"
      · rw [if_pos ht, if_pos ⟨hdata, ht⟩]
        cases hrl : renderLoop
            { st with title := "Departures from " ++ g.locationName } 2 0
            services with
        | error stc =>
          have hp := (renderLoop_presW services
            { st with title := "Departures from " ++ g.locationName } 2 0).1
          rw [hrl] at hp
          simpa [stateOf, resState, locName] using hp
        | ok p =>
          obtain ⟨st2, dr2⟩ := p
          dsimp only
          have hp := (renderLoop_presW services
            { st with title := "Departures from " ++ g.locationName } 2 0).1
          rw [hrl] at hp
          simp [resState] at hp
          by_cases hlt : services.length < rows
          · rw [if_pos hlt]
            rw [(blankList_pres
              (List.range' services.length (rows - services.length)) st2).1, hp]
            simp [locName]
          · rw [if_neg hlt]
            simpa [stateOf, locName] using hp
      · rw [if_neg ht, if_neg (fun hcon => ht hcon.2)]
        cases hrl : renderLoop st 2 0 services with
        | error stc =>
          have hp := (renderLoop_presW services st 2 0).1
          rw [hrl] at hp
          simpa [stateOf, resState] using hp
        | ok p =>
          obtain ⟨st2, dr2⟩ := p
          dsimp only
          have hp := (renderLoop_presW services st 2 0).1
          rw [hrl] at hp
          simp [resState] at hp
          by_cases hlt : services.length < rows
          · rw [if_pos hlt]
            rw [(blankList_pres
              (List.range' services.length (rows - services.length)) st2).1, hp]
          · rw [if_neg hlt]
            simpa [stateOf] using hp

/-- Once the title is no longer the placeholder, no later render changes
it. -/
theorem titleTrace_stable (rows : Nat) :
    ∀ (rs : List (Option Response)) (st : DisplayState), st.title ≠ "tk" →
      ∀ i (hi : i < (titleTrace st rows rs).length),
        (titleTrace st rows rs).get ⟨i, hi⟩ = st.title := by
  intro rs
  induction rs with
  | nil => intro st _ i hi; simp [titleTrace] at hi
  | cons r rs ih =>
    intro st hne i hi
    have hstep : (stateOf (display_info st rows r)).title = st.title := by
      rw [display_info_title, if_neg (fun hcon => hne hcon.2)]
    cases i with
    | zero => simpa [titleTrace] using hstep
    | succ i =>
      have htail := ih (stateOf (display_info st rows r))
        (by rw [hstep]; exact hne) i (by simpa [titleTrace] using hi)
      rw [hstep] at htail
      exact htail

/-- C9: across any sequence of refreshes against the same station, the
window title after the `i`-th refresh is the station title as soon as some
refresh at or before `i` took the populating path, and still the
placeholder `"tk"` otherwise — i.e. it is written exactly once, by the
first successful population, and never rewritten. -/
theorem c9_title_set_once (rows : Nat) (name : String) :
    ∀ (rs : List (Option Response)) (st : DisplayState), st.title = "tk" →
      (∀ r ∈ rs, ∀ g, r = some g → g.locationName = name) →
      ∀ i (hi : i < (titleTrace st rows rs).length),
        (titleTrace st rows rs).get ⟨i, hi⟩ =
          if (rs.take (i + 1)).any dataOKb then "Departures from " ++ name
          else "tk" := by
  intro rs
  induction rs with
  | nil => intro st _ _ i hi; simp [titleTrace] at hi
  | cons r rs ih =>
    intro st hinit hall i hi
    have hloc : dataOKb r = true → locName r = name := by
      intro hd
      cases r with
      | none => simp [dataOKb] at hd
      | some g =>
        have := hall (some g) (List.mem_cons_self _ _) g rfl
        simpa [locName] using this
    by_cases hd : dataOKb r = true
    · have hstep : (stateOf (display_info st rows r)).title =
          "Departures from " ++ name := by
        rw [display_info_title, if_pos ⟨hd, hinit⟩, hloc hd]
      cases i with
      | zero => simpa [titleTrace, hd] using hstep
      | succ i =>
        have hne : (stateOf (display_info st rows r)).title ≠ "tk" := by
          rw [hstep]; exact dep_ne_tk name
        have htail := titleTrace_stable rows rs (stateOf (display_info st rows r))
          hne i (by simpa [titleTrace] using hi)
        have hLHS : (titleTrace st rows (r :: rs)).get ⟨i + 1, hi⟩ =
            (titleTrace (stateOf (display_info st rows r)) rows rs).get
              ⟨i, by simpa [titleTrace] using hi⟩ := rfl
        rw [hLHS, htail, hstep]
        simp [hd]
    · have hstep : (stateOf (display_info st rows r)).title = "tk" := by
        rw [display_info_title, if_neg (fun hcon => hd hcon.1), hinit]
      cases i with
      | zero => simpa [titleTrace, hd] using hstep
      | succ i =>
        have hIH := ih (stateOf (display_info st rows r)) hstep
          (fun r' hr' => hall r' (List.mem_cons_of_mem _ hr')) i
          (by simpa [titleTrace] using hi)
        have hLHS : (titleTrace st rows (r :: rs)).get ⟨i + 1, hi⟩ =
            (titleTrace (stateOf (display_info st rows r)) rows rs).get
              ⟨i, by simpa [titleTrace] using hi⟩ := rfl
        rw [hLHS, hIH]
        simp [hd]

/-- Witness for C9: a null refresh followed by a successful populate for
station "Reading"; after the second refresh the title holds the station
title. -/
theorem c9_witness :
    (initState.title = "tk" ∧
      (∀ r ∈ ([none, some (⟨"Reading", some [sampleEntry], none⟩ : Response)] :
          List (Option Response)), ∀ g, r = some g →
        g.locationName = "Reading")) ∧
    (titleTrace initState 10
        [none, some ⟨"Reading", some [sampleEntry], none⟩]).get ⟨1, by decide⟩ =
      if (([none, some (⟨"Reading", some [sampleEntry], none⟩ : Response)].take
          (1 + 1)).any dataOKb) then "Departures from " ++ "Reading"
      else "tk" := by
  have hall : ∀ r ∈ ([none,
      some (⟨"Reading", some [sampleEntry], none⟩ : Response)] :
      List (Option Response)), ∀ g, r = some g → g.locationName = "Reading" := by
    intro r hr g hg
    simp only [List.mem_cons, List.not_mem_nil, or_false] at hr
    rcases hr with h | h
    · subst h; cases hg
    · subst h; cases hg; rfl
  exact ⟨⟨rfl, hall⟩,
    c9_title_set_once 10 "Reading"
      [none, some ⟨"Reading", some [sampleEntry], none⟩] initState rfl hall 1
      (by decide)⟩
